import Mathlib

/-!
Shallow embedding of `src/js/auth.js` (localStorage-based account /
session module).  JS strings are modelled as Lean `String`, JS `Date`
values as epoch milliseconds (`Int`); the module's ISO-string round trips
(`toISOString` / `new Date(iso)`) are millisecond-faithful, so timestamps
are kept as `Int` throughout.  The ambient clock (`new Date()`,
`Date.now()`) and the random id / temporary-password generators are passed
as explicit parameters.  The fixed reference time zone is UTC.  The two
localStorage keys (user collection, current user) form the `AuthState`
record; each operation is a function from state (plus inputs and clock)
to result × state, mirroring the read-modify-write structure of the JS.
-/

namespace Auth

abbrev Str := String

/-- JS truthiness for strings: only the empty string is falsy. -/
def truthy (s : Str) : Bool := s != ""

/-- JS truthiness for an optional string (absent / `null` is falsy). -/
def optTruthy : Option Str → Bool
  | none => false
  | some s => truthy s

/-- `x || null` on an optional string field. -/
def orNull (o : Option Str) : Option Str :=
  if optTruthy o then o else none

/-- The base64 alphabet used by `btoa`. -/
def base64Alphabet : List Char :=
  "ABCDEFGHIJKLMNOPQRSTUVWXYZabcdefghijklmnopqrstuvwxyz0123456789+/".toList

/-- The base64 digit for a 6-bit value. -/
def b64 (n : Nat) : Char := base64Alphabet.getD n '='

/-- Standard base64 over a list of byte values (3 bytes to 4 digits,
`=`-padded).  Models the platform `btoa` on its valid inputs (code points
below 256). -/
def btoaChunks : List Nat → List Char
  | [] => []
  | [a] => [b64 (a / 4), b64 (a % 4 * 16), '=', '=']
  | [a, b] => [b64 (a / 4), b64 (a % 4 * 16 + b / 16), b64 (b % 16 * 4), '=']
  | a :: b :: c :: rest =>
      b64 (a / 4) :: b64 (a % 4 * 16 + b / 16) :: b64 (b % 16 * 4 + c / 64) ::
        b64 (c % 64) :: btoaChunks rest

/-- Model of the platform `btoa` (base64 of the string's code points). -/
def btoa (s : Str) : Str := String.mk (btoaChunks (s.toList.map Char.toNat))

/-- `hashPassword`: `btoa(password + 'saju2026_salt')`. -/
def hashPassword (password : Str) : Str := btoa (password ++ "saju2026_salt")

/-- `verifyPassword`: `hashPassword(inputPassword) === hashedPassword`. -/
def verifyPassword (inputPassword hashedPassword : Str) : Bool :=
  hashPassword inputPassword == hashedPassword

/-- The JS `\s` class (the whitespace code points relevant at this scale). -/
def isJsSpace (c : Char) : Bool :=
  c = ' ' ∨ c = '\t' ∨ c = '\n' ∨ c = '\r' ∨ c = '\x0b' ∨ c = '\x0c' ∨
    c = ' ' ∨ c = '﻿'

/-- A character matched by `[^\s@]`. -/
def isEmailChar (c : Char) : Bool := !isJsSpace c && c ≠ '@'

/-- `isValidEmail`: the language of `/^[^\s@]+@[^\s@]+\.[^\s@]+$/` —
exactly one `@`, a non-empty local part made of `[^\s@]` characters, and
a domain of `[^\s@]` characters containing a dot that is neither its
first nor its last character. -/
def isValidEmail (email : Str) : Bool :=
  let l := email.toList
  let localPart := l.takeWhile (fun c => c ≠ '@')
  let rest := l.dropWhile (fun c => c ≠ '@')
  match rest with
  | [] => false
  | _ :: domain =>
      l.count '@' == 1 &&
      localPart ≠ [] && localPart.all isEmailChar &&
      domain ≠ [] && domain.all isEmailChar &&
      (List.range domain.length).any (fun i =>
        decide (0 < i) && decide (i + 1 < domain.length) && domain.getD i ' ' == '.')

/-- `isValidPassword`: length at least 8. -/
def isValidPassword (password : Str) : Bool := password.length ≥ 8

/-- Skip a single optional hyphen (`-?` before a digit group). -/
def skipDash : List Char → List Char
  | '-' :: rest => rest
  | l => l

/-- `isValidPhone`: the language of `/^01[0-9]-?[0-9]{4}-?[0-9]{4}$/`. -/
def isValidPhone (phone : Str) : Bool :=
  match phone.toList with
  | '0' :: '1' :: c :: rest =>
      let r1 := skipDash rest
      let g1 := r1.take 4
      let r2 := skipDash (r1.drop 4)
      c.isDigit && g1.length == 4 && g1.all Char.isDigit &&
        r2.length == 4 && r2.all Char.isDigit
  | _ => false

/-! ### Date arithmetic

Epoch-day / civil-date conversions (proleptic Gregorian calendar, in the
floor-division formulation; `/` and `%` on `Int` are euclidean, i.e.
floor for the positive divisors used here, matching ECMAScript's floor
semantics).  `jsAddMonths` models ECMAScript `setMonth(getMonth() + k)`
(MakeDay/MakeDate): first day of the target month plus the original
day-of-month minus one — day-of-month overflow rolls into the following
month — with the time of day preserved. -/

def dayMs : Int := 86400000

structure Civil where
  y : Int
  m : Int
  d : Int
deriving DecidableEq, Repr

/-- Civil date of an epoch day number. -/
def civilFromDays (z : Int) : Civil :=
  let zz := z + 719468
  let era := zz / 146097
  let doe := zz - era * 146097
  let yoe := (doe - doe / 1460 + doe / 36524 - doe / 146096) / 365
  let y := yoe + era * 400
  let doy := doe - (365 * yoe + yoe / 4 - yoe / 100)
  let mp := (5 * doy + 2) / 153
  let d := doy - (153 * mp + 2) / 5 + 1
  let m := if mp < 10 then mp + 3 else mp - 9
  ⟨if m ≤ 2 then y + 1 else y, m, d⟩

/-- Epoch day number of a civil date. -/
def daysFromCivil (y m d : Int) : Int :=
  let yy := if m ≤ 2 then y - 1 else y
  let era := yy / 400
  let yoe := yy - era * 400
  let mp := if 2 < m then m - 3 else m + 9
  let doy := (153 * mp + 2) / 5 + d - 1
  let doe := yoe * 365 + yoe / 4 - yoe / 100 + doy
  era * 146097 + doe - 719468

/-- `setMonth(getMonth() + k)` on an epoch-millisecond value. -/
def jsAddMonths (t : Int) (k : Int) : Int :=
  let days := t / dayMs
  let tod := t - days * dayMs
  let c := civilFromDays days
  let m0 := c.m - 1 + k
  let y2 := c.y + m0 / 12
  let m2 := m0 % 12 + 1
  (daysFromCivil y2 m2 1 + (c.d - 1)) * dayMs + tod

/-- Two timestamps have the same `toDateString()` rendering (same civil
day in the fixed reference time zone) iff they lie on the same epoch
day. -/
def sameCalendarDay (a b : Int) : Bool := a / dayMs == b / dayMs

/-! ### Data model -/

structure PurchaseRecord where
  id : Str
  type : Option Str
  date : Int
  extra : List (Str × Str)
deriving DecidableEq, Repr

/-- Caller input to `addPurchaseHistory`: a JS object that may carry its
own `id` / `date` keys besides `type` and arbitrary other fields
(modelled as an association list of opaque string fields). -/
structure PurchaseInput where
  id : Option Str
  date : Option Int
  type : Option Str
  extra : List (Str × Str)
deriving DecidableEq, Repr

structure ConsultationRecord where
  id : Str
  date : Int
  extra : List (Str × Str)
deriving DecidableEq, Repr

/-- Caller input to `addConsultationHistory`. -/
structure ConsultationInput where
  id : Option Str
  date : Option Int
  extra : List (Str × Str)
deriving DecidableEq, Repr

/-- The record literal `{ id: 'purchase_' + Date.now(), ...purchase,
date: new Date().toISOString() }`: the spread comes after the `id:` key,
so a caller-supplied `id` overrides the generated one; the `date:` key
comes after the spread, so the ledger's date always wins. -/
def mkPurchaseRecord (now : Int) (p : PurchaseInput) : PurchaseRecord :=
  { id := match p.id with
      | some i => i
      | none => "purchase_" ++ toString now
    type := p.type
    date := now
    extra := p.extra }

/-- The record literal `{ id: 'consult_' + Date.now(), ...consultation,
date: new Date().toISOString() }`, with the same key-ordering semantics
as `mkPurchaseRecord`. -/
def mkConsultationRecord (now : Int) (c : ConsultationInput) : ConsultationRecord :=
  { id := match c.id with
      | some i => i
      | none => "consult_" ++ toString now
    date := now
    extra := c.extra }

structure User where
  id : Str
  email : Str
  password : Str
  name : Str
  phone : Option Str
  birthDate : Option Str
  birthTime : Option Str
  gender : Option Str
  calendarType : Str
  membershipType : Str
  premiumExpiry : Option Int
  createdAt : Int
  lastLogin : Int
  sajuData : Option Str
  sajuCalculatedAt : Option Int
  purchaseHistory : List PurchaseRecord
  consultationHistory : List ConsultationRecord
deriving DecidableEq, Repr

/-- A user record with the `password` field removed — the shape produced
by `sanitizeUser`'s rest-destructuring. -/
structure SanitizedUser where
  id : Str
  email : Str
  name : Str
  phone : Option Str
  birthDate : Option Str
  birthTime : Option Str
  gender : Option Str
  calendarType : Str
  membershipType : Str
  premiumExpiry : Option Int
  createdAt : Int
  lastLogin : Int
  sajuData : Option Str
  sajuCalculatedAt : Option Int
  purchaseHistory : List PurchaseRecord
  consultationHistory : List ConsultationRecord
deriving DecidableEq, Repr

/-- `sanitizeUser`: `const { password, ...sanitized } = user`. -/
def sanitizeUser (u : User) : SanitizedUser :=
  ⟨u.id, u.email, u.name, u.phone, u.birthDate, u.birthTime, u.gender,
    u.calendarType, u.membershipType, u.premiumExpiry, u.createdAt,
    u.lastLogin, u.sajuData, u.sajuCalculatedAt, u.purchaseHistory,
    u.consultationHistory⟩

/-- The two localStorage keys: the user collection
(`saju2026_users`) and the published current-user session
(`saju2026_current_user`, always stored sanitized). -/
structure AuthState where
  users : List User
  currentUser : Option SanitizedUser
deriving DecidableEq, Repr

/-! ### Result messages (verbatim from the source) -/

def msgRequired : Str := "필수 정보를 모두 입력해주세요."
def msgBadEmail : Str := "올바른 이메일 형식이 아닙니다."
def msgShortPassword : Str := "비밀번호는 최소 8자 이상이어야 합니다."
def msgBadPhone : Str := "올바른 전화번호 형식이 아닙니다. (예: 010-1234-5678)"
def msgEmailRegistered : Str := "이미 가입된 이메일입니다."
def msgRegisterSuccess : Str := "회원가입이 완료되었습니다!"
def msgLoginRequired : Str := "이메일과 비밀번호를 입력해주세요."
def msgNotRegistered : Str := "가입되지 않은 이메일입니다."
def msgWrongPassword : Str := "비밀번호가 올바르지 않습니다."
def msgLoginSuccess : Str := "로그인 되었습니다!"
def msgLogoutSuccess : Str := "로그아웃 되었습니다."
def msgUserNotFound : Str := "사용자를 찾을 수 없습니다."
def msgEmailInUse : Str := "이미 사용중인 이메일입니다."
def msgUpdated : Str := "정보가 업데이트되었습니다."
def msgResetSent : Str := "임시 비밀번호가 이메일로 전송되었습니다."

/-- Result shape of `register` / `login` / `logout` / `updateUser`. -/
structure OpResult where
  success : Bool
  message : Str
  user : Option SanitizedUser
deriving DecidableEq, Repr

structure PurchaseResult where
  success : Bool
  message : Option Str
  purchase : Option PurchaseRecord
deriving DecidableEq, Repr

structure ConsultationResult where
  success : Bool
  message : Option Str
  consultation : Option ConsultationRecord
deriving DecidableEq, Repr

structure ResetResult where
  success : Bool
  message : Str
  tempPassword : Option Str
deriving DecidableEq, Repr

structure SajuResult where
  success : Bool
  message : Option Str
deriving DecidableEq, Repr

/-! ### Operations -/

/-- `saveUser`: replace the record whose `id` matches (`findIndex` hit),
else append (`push`).  Written as structural recursion: replace the
first match, else append at the end — exactly `findIndex`'s semantics. -/
def saveUser : List User → User → List User
  | [], u => [u]
  | v :: vs, u => if v.id == u.id then u :: vs else v :: saveUser vs u

/-- A failed `OpResult` with no `user` field. -/
def opFail (m : Str) : OpResult := ⟨false, m, none⟩

/-- `register(userData)`.  The fresh random id (`generateUserId`) and the
clock are explicit parameters. -/
structure RegisterInput where
  email : Str
  password : Str
  name : Str
  phone : Option Str
  birthDate : Option Str
  birthTime : Option Str
  gender : Option Str
  calendarType : Option Str
deriving DecidableEq, Repr

def register (st : AuthState) (i : RegisterInput) (newId : Str) (now : Int) :
    OpResult × AuthState :=
  if !(truthy i.email && truthy i.password && truthy i.name) then
    (opFail msgRequired, st)
  else if !isValidEmail i.email then (opFail msgBadEmail, st)
  else if !isValidPassword i.password then (opFail msgShortPassword, st)
  else if optTruthy i.phone && !isValidPhone (i.phone.getD "") then
    (opFail msgBadPhone, st)
  else if (st.users.find? (fun u => u.email == i.email)).isSome then
    (opFail msgEmailRegistered, st)
  else
    let newUser : User :=
      { id := newId
        email := i.email
        password := hashPassword i.password
        name := i.name
        phone := orNull i.phone
        birthDate := orNull i.birthDate
        birthTime := orNull i.birthTime
        gender := orNull i.gender
        calendarType := match orNull i.calendarType with
          | some c => c
          | none => "solar"
        membershipType := "free"
        premiumExpiry := none
        createdAt := now
        lastLogin := now
        sajuData := none
        sajuCalculatedAt := none
        purchaseHistory := []
        consultationHistory := [] }
    (⟨true, msgRegisterSuccess, some (sanitizeUser newUser)⟩,
      { st with users := saveUser st.users newUser })

/-- `setCurrentUser`: store the sanitized user under the session key. -/
def setCurrentUser (st : AuthState) (u : User) : AuthState :=
  { st with currentUser := some (sanitizeUser u) }

/-- `getCurrentUser`. -/
def getCurrentUser (st : AuthState) : Option SanitizedUser := st.currentUser

/-- `isLoggedIn`. -/
def isLoggedIn (st : AuthState) : Bool := (getCurrentUser st).isSome

/-- `login(email, password)`. -/
def login (st : AuthState) (email password : Str) (now : Int) :
    OpResult × AuthState :=
  if !truthy email || !truthy password then (opFail msgLoginRequired, st)
  else
    match st.users.find? (fun u => u.email == email) with
    | none => (opFail msgNotRegistered, st)
    | some user =>
      if !verifyPassword password user.password then (opFail msgWrongPassword, st)
      else
        let user2 := { user with lastLogin := now }
        let st1 := { st with users := saveUser st.users user2 }
        let st2 := setCurrentUser st1 user2
        (⟨true, msgLoginSuccess, some (sanitizeUser user2)⟩, st2)

/-- `logout`: remove the session key. -/
def logout (st : AuthState) : OpResult × AuthState :=
  (⟨true, msgLogoutSuccess, none⟩, { st with currentUser := none })

/-- The membership test at the heart of `isPremiumUser`: premium tier,
and either no expiry (`!user.premiumExpiry`) or an expiry strictly after
`now`. -/
def premiumActive (membershipType : Str) (premiumExpiry : Option Int) (now : Int) : Bool :=
  if membershipType == "premium" then
    match premiumExpiry with
    | none => true
    | some e => now < e
  else false

/-- `isPremiumUser()`: reads the current session user. -/
def isPremiumUser (st : AuthState) (now : Int) : Bool :=
  match getCurrentUser st with
  | none => false
  | some u => premiumActive u.membershipType u.premiumExpiry now

/-- An update object passed to `updateUser` — every field it may carry;
an absent key is `none`.  `Object.assign` copies each present key onto
the user, including `id`. -/
structure UserPatch where
  id : Option Str
  email : Option Str
  password : Option Str
  name : Option Str
  phone : Option Str
  birthDate : Option Str
  birthTime : Option Str
  gender : Option Str
  calendarType : Option Str
  membershipType : Option Str
  premiumExpiry : Option (Option Int)
deriving DecidableEq, Repr

/-- `Object.assign(user, updates)`. -/
def applyPatch (u : User) (p : UserPatch) : User :=
  { u with
    id := p.id.getD u.id
    email := p.email.getD u.email
    password := p.password.getD u.password
    name := p.name.getD u.name
    phone := match p.phone with
      | some v => some v
      | none => u.phone
    birthDate := match p.birthDate with
      | some v => some v
      | none => u.birthDate
    birthTime := match p.birthTime with
      | some v => some v
      | none => u.birthTime
    gender := match p.gender with
      | some v => some v
      | none => u.gender
    calendarType := p.calendarType.getD u.calendarType
    membershipType := p.membershipType.getD u.membershipType
    premiumExpiry := p.premiumExpiry.getD u.premiumExpiry }

/-- The `const currentUser = getCurrentUser(); if (currentUser &&
currentUser.id === userId) setCurrentUser(user)` step shared by
`updateUser` and `saveSajuData`. -/
def republishIfCurrent (st : AuthState) (userId : Str) (u : User) : AuthState :=
  match getCurrentUser st with
  | some cu => if cu.id == userId then setCurrentUser st u else st
  | none => st

/-- The `if (updates.password) updates.password = hashPassword(...)` step:
a truthy patch password is re-encoded before the merge. -/
def hashPatchPassword (p : UserPatch) : UserPatch :=
  match p.password with
  | some pw => if truthy pw then { p with password := some (hashPassword pw) } else p
  | none => p

/-- `updateUser(userId, updates)`.  A truthy `updates.password` is
re-encoded through `hashPassword` before the merge; an email change is
checked for conflicts only when the new email is truthy and different. -/
def updateUser (st : AuthState) (userId : Str) (p : UserPatch) :
    OpResult × AuthState :=
  match st.users.find? (fun u => u.id == userId) with
  | none => (opFail msgUserNotFound, st)
  | some user =>
    let p2 := hashPatchPassword p
    let conflict : Bool := match p2.email with
      | some e => truthy e && e != user.email &&
          st.users.any (fun u => u.email == e && u.id != userId)
      | none => false
    if conflict then (opFail msgEmailInUse, st)
    else
      let merged := applyPatch user p2
      let st1 := { st with users := saveUser st.users merged }
      (⟨true, msgUpdated, some (sanitizeUser merged)⟩, republishIfCurrent st1 userId merged)

/-- `saveSajuData(userId, sajuData)`. -/
def saveSajuData (st : AuthState) (userId : Str) (data : Str) (now : Int) :
    SajuResult × AuthState :=
  match st.users.find? (fun u => u.id == userId) with
  | none => (⟨false, some msgUserNotFound⟩, st)
  | some user =>
    let user2 := { user with sajuData := some data, sajuCalculatedAt := some now }
    let st1 := { st with users := saveUser st.users user2 }
    (⟨true, none⟩, republishIfCurrent st1 userId user2)

/-- `addPurchaseHistory(userId, purchase)`: prepend the record
(`unshift`), save, and when the purchase type is a premium plan compute
`expiry = now + 1 or 12 calendar months` and route a membership patch
through `updateUser`. -/
def addPurchaseHistory (st : AuthState) (userId : Str) (p : PurchaseInput) (now : Int) :
    PurchaseResult × AuthState :=
  match st.users.find? (fun u => u.id == userId) with
  | none => (⟨false, some msgUserNotFound, none⟩, st)
  | some user =>
    let record := mkPurchaseRecord now p
    let user2 := { user with purchaseHistory := record :: user.purchaseHistory }
    let st1 := { st with users := saveUser st.users user2 }
    if p.type == some "premium_monthly" || p.type == some "premium_yearly" then
      let expiry := jsAddMonths now (if p.type == some "premium_yearly" then 12 else 1)
      let st2 := (updateUser st1 userId
        ⟨none, none, none, none, none, none, none, none, none,
          some "premium", some (some expiry)⟩).2
      (⟨true, none, some record⟩, st2)
    else
      (⟨true, none, some record⟩, st1)

/-- `addConsultationHistory(userId, consultation)`. -/
def addConsultationHistory (st : AuthState) (userId : Str) (c : ConsultationInput)
    (now : Int) : ConsultationResult × AuthState :=
  match st.users.find? (fun u => u.id == userId) with
  | none => (⟨false, some msgUserNotFound, none⟩, st)
  | some user =>
    let record := mkConsultationRecord now c
    let user2 := { user with consultationHistory := record :: user.consultationHistory }
    let st1 := { st with users := saveUser st.users user2 }
    (⟨true, none, some record⟩, st1)

/-- `getTodayConsultationCount(userId)`: count the consultation records
whose `toDateString()` equals today's. -/
def getTodayConsultationCount (st : AuthState) (userId : Str) (now : Int) : Nat :=
  match st.users.find? (fun u => u.id == userId) with
  | none => 0
  | some user =>
    (user.consultationHistory.filter (fun c => sameCalendarDay c.date now)).length

/-- `resetPassword(email)`: the random suffix of the temporary password
is an explicit parameter (`Math.random().toString(36).substr(2, 8)`). -/
def resetPassword (st : AuthState) (email : Str) (randSuffix : Str) :
    ResetResult × AuthState :=
  match st.users.find? (fun u => u.email == email) with
  | none => (⟨false, msgNotRegistered, none⟩, st)
  | some user =>
    let tempPassword := "temp" ++ randSuffix
    let user2 := { user with password := hashPassword tempPassword }
    (⟨true, msgResetSent, some tempPassword⟩,
      { st with users := saveUser st.users user2 })

/-- `initializeUsers()`: seed the demo account when the store is empty. -/
def initializeUsers (st : AuthState) (newId : Str) (now : Int) : AuthState :=
  if st.users.isEmpty then
    let demoUser : User :=
      { id := newId
        email := "demo@saju2026.com"
        password := hashPassword "demo1234"
        name := "홍길동"
        phone := some "010-1234-5678"
        birthDate := some "1990-05-15"
        birthTime := some "자시(子時, 23:30-01:29)"
        gender := some "male"
        calendarType := "lunar"
        membershipType := "free"
        premiumExpiry := none
        createdAt := now
        lastLogin := now
        sajuData := none
        sajuCalculatedAt := none
        purchaseHistory := []
        consultationHistory := [] }
    { st with users := saveUser st.users demoUser }
  else st

/-! ### Specification models (for the refinement claims) -/

/-- Modelled from the spec (§4.3 login): fails with `ValidationError` when a
credential is empty, `NotFound` when no account holds the email,
`InvalidCredentials` when `CredentialCodec.matches` is false; on success
updates `lastLogin`, persists, publishes the session and returns the
redacted account.  Error kinds are rendered by the module's message
strings. -/
def loginSpec (st : AuthState) (email secret : Str) (now : Int) :
    OpResult × AuthState :=
  if email = "" ∨ secret = "" then (opFail msgLoginRequired, st)
  else
    match st.users.find? (fun u => u.email == email) with
    | none => (opFail msgNotRegistered, st)
    | some account =>
      if hashPassword secret ≠ account.password then (opFail msgWrongPassword, st)
      else
        let account2 := { account with lastLogin := now }
        (⟨true, msgLoginSuccess, some (sanitizeUser account2)⟩,
          ⟨saveUser st.users account2, some (sanitizeUser account2)⟩)

/-- Modelled from the spec (§4.3 register): the message of the first violated
check in the order required fields → email shape → secret length → phone
shape (when provided) → email uniqueness; `none` when every check passes. -/
def registerOutcomeSpec (users : List User) (i : RegisterInput) : Option Str :=
  if !(truthy i.email && truthy i.password && truthy i.name) then some msgRequired
  else if !isValidEmail i.email then some msgBadEmail
  else if !isValidPassword i.password then some msgShortPassword
  else if optTruthy i.phone && !isValidPhone (i.phone.getD "") then some msgBadPhone
  else if users.any (fun u => u.email == i.email) then some msgEmailRegistered
  else none

/-! ### Repository invariant and reachability -/

/-- The repository invariant behind the spec's uniqueness claims: ids
pairwise distinct, emails pairwise distinct and non-empty. -/
def GoodUsers (users : List User) : Prop :=
  users.Pairwise (fun a b => a.id ≠ b.id ∧ a.email ≠ b.email) ∧
    ∀ u ∈ users, u.email ≠ ""

/-- States reachable from the empty store through the module's public
operations, where every update patch carries no `id` field and never sets
the email to the empty string (the two merge paths `updateUser` does not
guard; dropping either restriction makes the email-uniqueness invariant
fail, as the counterexamples show). -/
inductive ReachableSafe : AuthState → Prop where
  | init : ReachableSafe ⟨[], none⟩
  | seed (st : AuthState) (newId : Str) (now : Int) :
      ReachableSafe st → ReachableSafe (initializeUsers st newId now)
  | reg (st : AuthState) (i : RegisterInput) (newId : Str) (now : Int) :
      ReachableSafe st → ReachableSafe (register st i newId now).2
  | login (st : AuthState) (email password : Str) (now : Int) :
      ReachableSafe st → ReachableSafe (login st email password now).2
  | logout (st : AuthState) : ReachableSafe st → ReachableSafe (logout st).2
  | update (st : AuthState) (uid : Str) (p : UserPatch) :
      p.id = none → p.email ≠ some "" → ReachableSafe st →
      ReachableSafe (updateUser st uid p).2
  | saveSaju (st : AuthState) (uid data : Str) (now : Int) :
      ReachableSafe st → ReachableSafe (saveSajuData st uid data now).2
  | purchase (st : AuthState) (uid : Str) (p : PurchaseInput) (now : Int) :
      ReachableSafe st → ReachableSafe (addPurchaseHistory st uid p now).2
  | consult (st : AuthState) (uid : Str) (c : ConsultationInput) (now : Int) :
      ReachableSafe st → ReachableSafe (addConsultationHistory st uid c now).2
  | reset (st : AuthState) (email randSuffix : Str) :
      ReachableSafe st → ReachableSafe (resetPassword st email randSuffix).2
  | setCurrent (st : AuthState) (u : User) :
      ReachableSafe st → ReachableSafe (setCurrentUser st u)

/-! ### Concrete fixtures used by witnesses and counterexamples -/

def userA : User :=
  ⟨"u1", "a@b.cd", hashPassword "longenough", "A", none, none, none, none,
    "solar", "free", none, 0, 0, none, none, [], []⟩

def stOne : AuthState := ⟨[userA], none⟩

def regA : RegisterInput := ⟨"a@b.cd", "longenough", "A", none, none, none, none, none⟩

def regB : RegisterInput := ⟨"b@b.cd", "longenough", "B", none, none, none, none, none⟩

def patchEmptyEmail : UserPatch :=
  ⟨none, some "", none, none, none, none, none, none, none, none, none⟩

def patchEvilId : UserPatch :=
  ⟨some "evil", none, none, none, none, none, none, none, none, none, none⟩

def c2s1 : AuthState := (register ⟨[], none⟩ regA "id1" 0).2
def c2s2 : AuthState := (register c2s1 regB "id2" 0).2
def c2s3 : AuthState := (updateUser c2s2 "id1" patchEmptyEmail).2
def c2s4 : OpResult × AuthState := updateUser c2s3 "id2" patchEmptyEmail

/-- The two accounts as stored by the `c2s2` registration run. -/
def userA1 : User :=
  ⟨"id1", "a@b.cd", hashPassword "longenough", "A", none, none, none, none,
    "solar", "free", none, 0, 0, none, none, [], []⟩

def userB1 : User :=
  ⟨"id2", "b@b.cd", hashPassword "longenough", "B", none, none, none, none,
    "solar", "free", none, 0, 0, none, none, [], []⟩

def patchB : UserPatch :=
  ⟨none, some "b@b.cd", none, none, none, none, none, none, none, none, none⟩

def patchName : UserPatch :=
  ⟨none, none, none, some "NewName", none, none, none, none, none, none, none⟩

def hourMs : Int := 3600000

def tScen : Int := 1700000000000

def cIn : ConsultationInput := ⟨none, none, [("topic", "saju")]⟩

/-- Five consultations: two appended yesterday, three today (relative to
`tScen`, whose time of day is 22:13 UTC). -/
def stScen : AuthState :=
  let s1 := (addConsultationHistory stOne "u1" cIn (tScen - 30 * hourMs)).2
  let s2 := (addConsultationHistory s1 "u1" cIn (tScen - 25 * hourMs)).2
  let s3 := (addConsultationHistory s2 "u1" cIn (tScen - 2 * hourMs)).2
  let s4 := (addConsultationHistory s3 "u1" cIn (tScen - 1 * hourMs)).2
  (addConsultationHistory s4 "u1" cIn tScen).2

/-! ### Calendar lemmas -/

set_option maxHeartbeats 1000000 in
/-- Year extraction inside `civilFromDays` is correct: with the quotients
characterized as floor divisions, the year-of-era lands in `[0, 399]` and
the remaining day-of-year in `[0, 365]`. -/
theorem yoe_doy_lin (doe q1 q2 q3 yoe r4 r100 : Int)
    (h0 : 0 ≤ doe) (h1 : doe ≤ 146096)
    (hq1 : 1460 * q1 ≤ doe ∧ doe < 1460 * q1 + 1460)
    (hq2 : 36524 * q2 ≤ doe ∧ doe < 36524 * q2 + 36524)
    (hq3 : 146096 * q3 ≤ doe ∧ doe < 146096 * q3 + 146096)
    (hy : 365 * yoe ≤ doe - q1 + q2 - q3 ∧ doe - q1 + q2 - q3 < 365 * yoe + 365)
    (h4 : 4 * r4 ≤ yoe ∧ yoe < 4 * r4 + 4)
    (h100 : 100 * r100 ≤ yoe ∧ yoe < 100 * r100 + 100) :
    0 ≤ yoe ∧ yoe ≤ 399 ∧
    365 * yoe + r4 - r100 ≤ doe ∧ doe - (365 * yoe + r4 - r100) ≤ 365 := by
  have hyb : 0 ≤ yoe ∧ yoe ≤ 399 := by omega
  obtain ⟨hy0, hy399⟩ := hyb
  interval_cases yoe <;> omega

/-- `daysFromCivil` is a left inverse of `civilFromDays`, whose month and
day components lie in the calendar ranges. -/
theorem civil_core (z : Int) :
    daysFromCivil (civilFromDays z).y (civilFromDays z).m (civilFromDays z).d = z ∧
    1 ≤ (civilFromDays z).m ∧ (civilFromDays z).m ≤ 12 ∧
    1 ≤ (civilFromDays z).d ∧ (civilFromDays z).d ≤ 31 := by
  dsimp only [civilFromDays]
  generalize hera : (z + 719468) / 146097 = era
  generalize hq1 : (z + 719468 - era * 146097) / 1460 = q1
  generalize hq2 : (z + 719468 - era * 146097) / 36524 = q2
  generalize hq3 : (z + 719468 - era * 146097) / 146096 = q3
  generalize hyoe : (z + 719468 - era * 146097 - q1 + q2 - q3) / 365 = yoe
  generalize h4 : yoe / 4 = r4
  generalize h100 : yoe / 100 = r100
  generalize hmp : (5 * (z + 719468 - era * 146097 - (365 * yoe + r4 - r100)) + 2) / 153 = mp
  generalize hf5 : (153 * mp + 2) / 5 = f5
  have key := yoe_doy_lin (z + 719468 - era * 146097) q1 q2 q3 yoe r4 r100
    (by omega) (by omega) (by omega) (by omega) (by omega) (by omega) (by omega) (by omega)
  have hmpB : 0 ≤ mp ∧ mp ≤ 11 ∧
      153 * mp ≤ 5 * (z + 719468 - era * 146097 - (365 * yoe + r4 - r100)) + 2 ∧
      5 * (z + 719468 - era * 146097 - (365 * yoe + r4 - r100)) + 2 < 153 * mp + 153 := by
    omega
  have hf5B : 5 * f5 ≤ 153 * mp + 2 ∧ 153 * mp + 2 < 5 * f5 + 5 := by omega
  have h4B : 4 * r4 ≤ yoe ∧ yoe < 4 * r4 + 4 := by omega
  have h100B : 100 * r100 ≤ yoe ∧ yoe < 100 * r100 + 100 := by omega
  clear hq1 hq2 hq3 hyoe
  rcases lt_or_ge mp 10 with hcase | hcase
  · simp only [if_pos hcase]
    rw [if_neg (by omega : ¬(mp + 3 ≤ 2))]
    refine ⟨?_, by omega, by omega, by omega, by omega⟩
    dsimp only [daysFromCivil]
    rw [if_neg (by omega : ¬(mp + 3 ≤ 2))]
    rw [if_pos (by omega : (2:Int) < mp + 3)]
    rw [show (yoe + era * 400) / 400 = era from by omega]
    rw [show yoe + era * 400 - era * 400 = yoe from by ring]
    rw [show mp + 3 - 3 = mp from by ring]
    omega
  · simp only [if_neg (by omega : ¬(mp < 10))]
    rw [if_pos (by omega : mp - 9 ≤ 2)]
    refine ⟨?_, by omega, by omega, by omega, by omega⟩
    dsimp only [daysFromCivil]
    rw [if_pos (by omega : mp - 9 ≤ 2)]
    rw [show yoe + era * 400 + 1 - 1 = yoe + era * 400 from by ring]
    rw [show (yoe + era * 400) / 400 = era from by omega]
    rw [show yoe + era * 400 - era * 400 = yoe from by ring]
    rw [if_neg (by omega : ¬(2 < mp - 9))]
    rw [show mp - 9 + 9 = mp from by ring]
    omega

/-- `daysFromCivil` is affine in the day argument. -/
theorem dfc_d_linear (y m d : Int) :
    daysFromCivil y m d = daysFromCivil y m 1 + (d - 1) := by
  simp only [daysFromCivil]
  omega

/-- A civil year (measured March 1 to March 1) spans 365 or 366 days. -/
theorem ys_step (v : Int) :
    365 ≤ daysFromCivil (v + 1) 3 1 - daysFromCivil v 3 1 ∧
    daysFromCivil (v + 1) 3 1 - daysFromCivil v 3 1 ≤ 366 := by
  norm_num [daysFromCivil]
  obtain ⟨e, r, hr0, hr1, hv⟩ : ∃ e r : Int, 0 ≤ r ∧ r < 400 ∧ v = 400 * e + r :=
    ⟨v / 400, v % 400, by omega, by omega, by omega⟩
  subst hv
  rw [show (400 * e + r) / 400 = e from by omega]
  rw [show 400 * e + r - e * 400 = r from by ring]
  rcases (by omega : r = 399 ∨ r < 399) with h399 | h399
  · subst h399
    rw [show (400 * e + 399 + 1) / 400 = e + 1 from by omega]
    rw [show 400 * e + 399 + 1 - (e + 1) * 400 = 0 from by ring]
    omega
  · rw [show (400 * e + r + 1) / 400 = e from by omega]
    rw [show 400 * e + r + 1 - e * 400 = r + 1 from by ring]
    omega

/-- Within-year month lengths: 28 to 31 days. -/
theorem monthLen (y m : Int) (h1 : 1 ≤ m) (h2 : m ≤ 11) :
    28 ≤ daysFromCivil y (m + 1) 1 - daysFromCivil y m 1 ∧
    daysFromCivil y (m + 1) 1 - daysFromCivil y m 1 ≤ 31 := by
  interval_cases m
  · norm_num [daysFromCivil] <;> omega
  · have hys := ys_step (y - 1)
    rw [show y - 1 + 1 = y from by ring] at hys
    norm_num [daysFromCivil] at hys ⊢
    omega
  · norm_num [daysFromCivil] <;> omega
  · norm_num [daysFromCivil] <;> omega
  · norm_num [daysFromCivil] <;> omega
  · norm_num [daysFromCivil] <;> omega
  · norm_num [daysFromCivil] <;> omega
  · norm_num [daysFromCivil] <;> omega
  · norm_num [daysFromCivil] <;> omega
  · norm_num [daysFromCivil] <;> omega
  · norm_num [daysFromCivil] <;> omega

/-- December spans 31 days into the next civil year. -/
theorem monthLenDec (y : Int) :
    28 ≤ daysFromCivil (y + 1) 1 1 - daysFromCivil y 12 1 ∧
    daysFromCivil (y + 1) 1 1 - daysFromCivil y 12 1 ≤ 31 := by
  norm_num [daysFromCivil] <;> omega

/-- One calendar month after `t` is strictly beyond `t` plus 15 days, and
at most two calendar months after `t`. -/
theorem jsAddMonths_facts (t : Int) :
    t + 15 * dayMs < jsAddMonths t 1 ∧ jsAddMonths t 1 ≤ jsAddMonths t 2 := by
  have hc := civil_core (t / dayMs)
  dsimp only [jsAddMonths, dayMs]
  dsimp only [dayMs] at hc
  obtain ⟨hrt, hm1, hm2, hd1, hd2⟩ := hc
  rcases hE : civilFromDays (t / 86400000) with ⟨y, m, d⟩
  rw [hE] at hrt hm1 hm2 hd1 hd2
  dsimp only at hrt hm1 hm2 hd1 hd2 ⊢
  rw [show m - 1 + 1 = m from by ring, show m - 1 + 2 = m + 1 from by ring]
  have hl := dfc_d_linear y m d
  interval_cases m
  · have ha := monthLen y 1 (by norm_num) (by norm_num)
    have hb := monthLen y 2 (by norm_num) (by norm_num)
    norm_num at *
    omega
  · have ha := monthLen y 2 (by norm_num) (by norm_num)
    have hb := monthLen y 3 (by norm_num) (by norm_num)
    norm_num at *
    omega
  · have ha := monthLen y 3 (by norm_num) (by norm_num)
    have hb := monthLen y 4 (by norm_num) (by norm_num)
    norm_num at *
    omega
  · have ha := monthLen y 4 (by norm_num) (by norm_num)
    have hb := monthLen y 5 (by norm_num) (by norm_num)
    norm_num at *
    omega
  · have ha := monthLen y 5 (by norm_num) (by norm_num)
    have hb := monthLen y 6 (by norm_num) (by norm_num)
    norm_num at *
    omega
  · have ha := monthLen y 6 (by norm_num) (by norm_num)
    have hb := monthLen y 7 (by norm_num) (by norm_num)
    norm_num at *
    omega
  · have ha := monthLen y 7 (by norm_num) (by norm_num)
    have hb := monthLen y 8 (by norm_num) (by norm_num)
    norm_num at *
    omega
  · have ha := monthLen y 8 (by norm_num) (by norm_num)
    have hb := monthLen y 9 (by norm_num) (by norm_num)
    norm_num at *
    omega
  · have ha := monthLen y 9 (by norm_num) (by norm_num)
    have hb := monthLen y 10 (by norm_num) (by norm_num)
    norm_num at *
    omega
  · have ha := monthLen y 10 (by norm_num) (by norm_num)
    have hb := monthLen y 11 (by norm_num) (by norm_num)
    norm_num at *
    omega
  · have ha := monthLen y 11 (by norm_num) (by norm_num)
    have hb := monthLenDec y
    norm_num at *
    omega
  · have ha := monthLenDec y
    have hb := monthLen (y + 1) 1 (by norm_num) (by norm_num)
    norm_num at *
    omega

/-! ### saveUser and invariant lemmas -/

theorem self_mem_saveUser (users : List User) (u : User) : u ∈ saveUser users u := by
  induction users with
  | nil => simp [saveUser]
  | cons v vs ih =>
    by_cases hv : v.id == u.id
    · simp [saveUser, hv]
    · simp only [saveUser, hv, if_false, Bool.false_eq_true]
      exact List.mem_cons_of_mem _ ih

theorem mem_saveUser {users : List User} {u w : User} (h : w ∈ saveUser users u) :
    w ∈ users ∨ w = u := by
  induction users with
  | nil =>
    simp [saveUser] at h
    exact Or.inr h
  | cons v vs ih =>
    by_cases hv : v.id == u.id
    · simp only [saveUser, hv, if_true] at h
      rcases List.mem_cons.mp h with h | h
      · exact Or.inr h
      · exact Or.inl (List.mem_cons_of_mem _ h)
    · simp only [saveUser, hv, if_false, Bool.false_eq_true] at h
      rcases List.mem_cons.mp h with h | h
      · exact Or.inl (h ▸ List.mem_cons_self _ _)
      · rcases ih h with h' | h'
        · exact Or.inl (List.mem_cons_of_mem _ h')
        · exact Or.inr h'

theorem find?_saveUser (users : List User) (u : User) (s : Str) (hs : u.id = s) :
    (saveUser users u).find? (fun v => v.id == s) = some u := by
  induction users with
  | nil => simp [saveUser, List.find?_cons, hs]
  | cons v vs ih =>
    by_cases hv : v.id == u.id
    · simp only [saveUser]
      rw [if_pos hv]
      have hus : (u.id == s) = true := by rw [hs]; exact beq_self_eq_true s
      simp [List.find?_cons, hus]
    · have hvs : ¬((v.id == s) = true) := by
        have hne : v.id ≠ u.id := fun hEq => hv (by rw [hEq]; exact beq_self_eq_true _)
        simp only [beq_iff_eq]
        rw [← hs]
        exact hne
      simp only [saveUser]
      rw [if_neg hv]
      have hb : (v.id == s) = false := by simpa using hvs
      simp only [List.find?_cons, hb]
      exact ih

theorem find?_id_mem {users : List User} {uid : Str} {user : User}
    (h : users.find? (fun u => u.id == uid) = some user) :
    user ∈ users ∧ user.id = uid := by
  refine ⟨List.mem_of_find?_eq_some h, ?_⟩
  have hp := List.find?_some h
  exact eq_of_beq hp

theorem goodUsers_distinct {users : List User} (hg : GoodUsers users) {a b : User}
    (ha : a ∈ users) (hb : b ∈ users) (hid : a.id ≠ b.id) : a.email ≠ b.email := by
  have hsymm : Symmetric (fun a b : User => a.id ≠ b.id ∧ a.email ≠ b.email) :=
    fun x y h => ⟨h.1.symm, h.2.symm⟩
  have hne : a ≠ b := fun h => hid (congrArg User.id h)
  exact ((hg.1.forall hsymm) ha hb hne).2

theorem goodUsers_saveUser : ∀ (users : List User) (u : User),
    GoodUsers users → u.email ≠ "" →
    (∀ v ∈ users, v.id ≠ u.id → v.email ≠ u.email) →
    GoodUsers (saveUser users u) := by
  intro users
  induction users with
  | nil =>
    intro u _ he _
    refine ⟨?_, ?_⟩
    · simp [saveUser]
    · intro w hw
      simp [saveUser] at hw
      rw [hw]
      exact he
  | cons v vs ih =>
    intro u hg he hf
    obtain ⟨hpw, hne⟩ := hg
    rcases List.pairwise_cons.mp hpw with ⟨hv_vs, hpw_vs⟩
    by_cases hvid : v.id == u.id
    · have hvu : v.id = u.id := eq_of_beq hvid
      simp only [saveUser, hvid, if_true]
      refine ⟨List.pairwise_cons.mpr ⟨?_, hpw_vs⟩, ?_⟩
      · intro w hw
        have h1 := hv_vs w hw
        have hwid : w.id ≠ u.id := fun hEq => h1.1 (by rw [hvu, hEq])
        refine ⟨fun hEq => hwid hEq.symm, ?_⟩
        exact fun hEq => (hf w (List.mem_cons_of_mem _ hw) hwid) hEq.symm
      · intro w hw
        rcases List.mem_cons.mp hw with h | h
        · rw [h]; exact he
        · exact hne w (List.mem_cons_of_mem _ h)
    · have hvne : v.id ≠ u.id := fun hEq => hvid (by rw [hEq]; exact beq_self_eq_true _)
      simp only [saveUser, hvid, if_false, Bool.false_eq_true]
      have ihres := ih u ⟨hpw_vs, fun w hw => hne w (List.mem_cons_of_mem _ hw)⟩ he
        (fun w hw hwid => hf w (List.mem_cons_of_mem _ hw) hwid)
      refine ⟨List.pairwise_cons.mpr ⟨?_, ihres.1⟩, ?_⟩
      · intro w hw
        rcases mem_saveUser hw with h | h
        · exact hv_vs w h
        · rw [h]
          exact ⟨hvne, hf v (List.mem_cons_self _ _) hvne⟩
      · intro w hw
        rcases List.mem_cons.mp hw with h | h
        · rw [h]; exact hne v (List.mem_cons_self _ _)
        · exact ihres.2 w h

theorem goodUsers_save_same {users : List User} {user merged : User}
    (hg : GoodUsers users) (hu : user ∈ users)
    (hid : merged.id = user.id) (hem : merged.email = user.email) :
    GoodUsers (saveUser users merged) := by
  apply goodUsers_saveUser _ _ hg
  · rw [hem]; exact hg.2 user hu
  · intro v hv hvid
    rw [hem]
    exact goodUsers_distinct hg hv hu (by rw [hid] at hvid; exact hvid)

theorem republish_users (st : AuthState) (uid : Str) (u : User) :
    (republishIfCurrent st uid u).users = st.users := by
  unfold republishIfCurrent getCurrentUser setCurrentUser
  cases st.currentUser with
  | none => rfl
  | some cu =>
    by_cases h : cu.id == uid
    · simp [h]
    · simp [h]

theorem hashPatchPassword_id (p : UserPatch) : (hashPatchPassword p).id = p.id := by
  unfold hashPatchPassword
  cases p.password with
  | none => rfl
  | some pw => by_cases ht : truthy pw = true <;> simp [ht]

theorem hashPatchPassword_email (p : UserPatch) : (hashPatchPassword p).email = p.email := by
  unfold hashPatchPassword
  cases p.password with
  | none => rfl
  | some pw => by_cases ht : truthy pw = true <;> simp [ht]

theorem goodUsers_register (st : AuthState) (i : RegisterInput) (newId : Str) (now : Int)
    (hg : GoodUsers st.users) : GoodUsers (register st i newId now).2.users := by
  unfold register
  split_ifs with h1 h2 h3 h4 h5
  · exact hg
  · exact hg
  · exact hg
  · exact hg
  · exact hg
  · have hA : i.email ≠ "" := by
      simp only [Bool.not_eq_true, Bool.not_eq_eq_eq_not, Bool.not_true, Bool.and_eq_false_iff,
        truthy] at h1
      intro hEq
      apply h1
      simp [truthy, hEq]
    have hB : ∀ v ∈ st.users, v.email ≠ i.email := by
      intro v hv hEq
      apply h5
      have : st.users.find? (fun u => u.email == i.email) ≠ none := by
        intro hnone
        have := List.find?_eq_none.mp hnone v hv
        simp [hEq] at this
      simp [Option.isSome_iff_ne_none, this]
    exact goodUsers_saveUser _ _ hg hA (fun v hv _ => hB v hv)

theorem goodUsers_login (st : AuthState) (e pw : Str) (now : Int)
    (hg : GoodUsers st.users) : GoodUsers (login st e pw now).2.users := by
  unfold login
  split_ifs with h1
  · exact hg
  · split
    next => exact hg
    next user heq =>
      split_ifs with h2
      · exact hg
      · exact goodUsers_save_same hg (List.mem_of_find?_eq_some heq) rfl rfl

theorem goodUsers_update (st : AuthState) (uid : Str) (p : UserPatch)
    (hid : p.id = none) (hem : p.email ≠ some "") (hg : GoodUsers st.users) :
    GoodUsers (updateUser st uid p).2.users := by
  unfold updateUser
  split
  next => exact hg
  next user hf =>
    obtain ⟨hmem, huid⟩ := find?_id_mem hf
    dsimp only
    split_ifs with hconf
    · exact hg
    · have hmid : (applyPatch user (hashPatchPassword p)).id = user.id := by
        simp [applyPatch, hashPatchPassword_id, hid]
      have hgood : GoodUsers (saveUser st.users (applyPatch user (hashPatchPassword p))) := by
        rcases hpe : p.email with _ | e
        · exact goodUsers_save_same hg hmem hmid
            (by simp [applyPatch, hashPatchPassword_email, hpe])
        · have hmem2 : (applyPatch user (hashPatchPassword p)).email = e := by
            simp [applyPatch, hashPatchPassword_email, hpe]
          by_cases he : e = user.email
          · exact goodUsers_save_same hg hmem hmid (by rw [hmem2, he])
          · have hene : e ≠ "" := by
              intro hEq
              exact hem (by rw [hpe, hEq])
            apply goodUsers_saveUser _ _ hg
            · rw [hmem2]; exact hene
            · intro v hv hvid
              rw [hmem2]
              intro hEq
              apply hconf
              rw [hashPatchPassword_email, hpe]
              simp only [truthy, Bool.and_eq_true, bne_iff_ne, ne_eq]
              refine ⟨⟨by simpa using hene, by simpa using he⟩, ?_⟩
              rw [List.any_eq_true]
              refine ⟨v, hv, ?_⟩
              rw [hmid] at hvid
              rw [huid] at hvid
              simp [hEq, hvid]
      simp only [republish_users]
      exact hgood

theorem goodUsers_saveSaju (st : AuthState) (uid data : Str) (now : Int)
    (hg : GoodUsers st.users) : GoodUsers (saveSajuData st uid data now).2.users := by
  unfold saveSajuData
  split
  next => exact hg
  next user hf =>
    simp only [republish_users]
    exact goodUsers_save_same hg (List.mem_of_find?_eq_some hf) rfl rfl

theorem goodUsers_purchase (st : AuthState) (uid : Str) (p : PurchaseInput) (now : Int)
    (hg : GoodUsers st.users) : GoodUsers (addPurchaseHistory st uid p now).2.users := by
  unfold addPurchaseHistory
  split
  next => exact hg
  next user hf =>
    have hgood1 : GoodUsers (saveUser st.users
        { user with purchaseHistory := mkPurchaseRecord now p :: user.purchaseHistory }) :=
      goodUsers_save_same hg (List.mem_of_find?_eq_some hf) rfl rfl
    have hgood2 : GoodUsers (AuthState.mk (saveUser st.users
        { user with purchaseHistory := mkPurchaseRecord now p :: user.purchaseHistory })
        st.currentUser).users := hgood1
    dsimp only
    split_ifs with hprem hyr
    · exact goodUsers_update _ _ _ rfl (by simp) hgood2
    · exact goodUsers_update _ _ _ rfl (by simp) hgood2
    · exact hgood1

theorem goodUsers_consult (st : AuthState) (uid : Str) (c : ConsultationInput) (now : Int)
    (hg : GoodUsers st.users) : GoodUsers (addConsultationHistory st uid c now).2.users := by
  unfold addConsultationHistory
  split
  next => exact hg
  next user hf =>
    exact goodUsers_save_same hg (List.mem_of_find?_eq_some hf) rfl rfl

theorem goodUsers_reset (st : AuthState) (email randSuffix : Str)
    (hg : GoodUsers st.users) : GoodUsers (resetPassword st email randSuffix).2.users := by
  unfold resetPassword
  split
  next => exact hg
  next user hf =>
    exact goodUsers_save_same hg (List.mem_of_find?_eq_some hf) rfl rfl

theorem goodUsers_seed (st : AuthState) (newId : Str) (now : Int)
    (hg : GoodUsers st.users) : GoodUsers (initializeUsers st newId now).users := by
  unfold initializeUsers
  split_ifs with h
  · have hnil : st.users = [] := by
      cases hu : st.users with
      | nil => rfl
      | cons a l => rw [hu] at h; cases h
    rw [hnil]
    refine ⟨?_, ?_⟩
    · simp [saveUser]
    · intro w hw
      simp [saveUser] at hw
      rw [hw]
      show ("demo@saju2026.com" : Str) ≠ ""
      decide
  · exact hg

/-- Every state reachable through the public operations, with update patches
that never carry an `id` field nor an empty email, satisfies the account
invariant: distinct ids, distinct non-empty emails. -/
theorem reachableSafe_goodUsers {st : AuthState} (h : ReachableSafe st) :
    GoodUsers st.users := by
  induction h with
  | init => exact ⟨List.Pairwise.nil, by intro u hu; cases hu⟩
  | seed st newId now _ ih => exact goodUsers_seed st newId now ih
  | reg st i newId now _ ih => exact goodUsers_register st i newId now ih
  | login st e pw now _ ih => exact goodUsers_login st e pw now ih
  | logout st _ ih => exact ih
  | update st uid p hid hem _ ih => exact goodUsers_update st uid p hid hem ih
  | saveSaju st uid data now _ ih => exact goodUsers_saveSaju st uid data now ih
  | purchase st uid p now _ ih => exact goodUsers_purchase st uid p now ih
  | consult st uid c now _ ih => exact goodUsers_consult st uid c now ih
  | reset st e r _ ih => exact goodUsers_reset st e r ih
  | setCurrent st u _ ih => exact ih

/-! ### Claims -/

/-- C1: for every non-empty secret `s`, `verifyPassword s (hashPassword s)`
is true; `hashPassword` is a deterministic pure function (equal inputs give
equal verifiers); and `verifyPassword s v` is true iff `hashPassword s = v`. -/
theorem c1_credential_roundtrip :
    (∀ s : Str, s ≠ "" → verifyPassword s (hashPassword s) = true) ∧
    (∀ s t : Str, s = t → hashPassword s = hashPassword t) ∧
    (∀ s v : Str, verifyPassword s v = true ↔ hashPassword s = v) := by
  refine ⟨fun s _ => ?_, fun s t h => by rw [h], fun s v => ?_⟩
  · simp [verifyPassword]
  · simp [verifyPassword]

/-- Witness for C1 at the demo credentials. -/
theorem c1_credential_roundtrip_witness :
    verifyPassword "demo1234" (hashPassword "demo1234") = true ∧
    (verifyPassword "demo1234" "x" = true ↔ hashPassword "demo1234" = "x") :=
  ⟨c1_credential_roundtrip.1 "demo1234" (by decide),
    c1_credential_roundtrip.2.2 "demo1234" "x"⟩

/-- C6: register reports exactly the first violated check in the order
required fields → email shape → secret length → phone shape (when provided)
→ email uniqueness, and succeeds exactly when no check is violated. -/
theorem c6_register_check_order (st : AuthState) (i : RegisterInput)
    (newId : Str) (now : Int) :
    (register st i newId now).1.message =
      (registerOutcomeSpec st.users i).getD msgRegisterSuccess ∧
    (register st i newId now).1.success = (registerOutcomeSpec st.users i).isNone := by
  have hfind : ∀ l : List User,
      (l.find? (fun u => u.email == i.email)).isSome
        = l.any (fun u => u.email == i.email) := by
    intro l
    induction l with
    | nil => rfl
    | cons v vs ih =>
      by_cases h : v.email == i.email <;>
        simp [List.find?_cons, List.any_cons, h, ih]
  unfold register registerOutcomeSpec
  rw [hfind st.users]
  split_ifs <;> exact ⟨rfl, rfl⟩

/-- C5: login coincides with its specification case analysis —
`ValidationError` when either argument is empty, `NotFound` when no stored
account has that email, `InvalidCredentials` when the verifier does not
match, and otherwise the success path (lastLogin updated, account
persisted, session published, redacted account returned) — so it fails in
exactly these cases and no others. -/
theorem c5_login_matches_spec (st : AuthState) (email password : Str) (now : Int) :
    login st email password now = loginSpec st email password now := by
  unfold login loginSpec
  by_cases he : email = ""
  · simp [truthy, he]
  · by_cases hp : password = ""
    · simp [truthy, he, hp]
    · have hcond : (!truthy email || !truthy password) = false := by
        simp [truthy, he, hp]
      have hcond2 : ¬(email = "" ∨ password = "") := by
        rintro (h | h)
        exacts [he h, hp h]
      rw [if_neg (by simp [hcond]), if_neg hcond2]
      cases hfind : st.users.find? (fun u => u.email == email) with
      | none => rfl
      | some user =>
        dsimp only
        by_cases hv : hashPassword password = user.password
        · have hb : (!verifyPassword password user.password) = false := by
            simp [verifyPassword, hv]
          rw [if_neg (by simp [hb]), if_neg (not_not_intro hv)]
          rfl
        · have hb : (!verifyPassword password user.password) = true := by
            simp [verifyPassword, hv]
          rw [if_pos hb, if_pos hv]

/-- C10: error atomicity — register, login, update and resetPassword either
leave the whole state (stored collection and published session) exactly as
it was, or report success. -/
theorem c10_error_atomicity (st : AuthState) (i : RegisterInput) (newId : Str)
    (now : Int) (email password uid em rand : Str) (p : UserPatch) :
    ((register st i newId now).2 = st ∨ (register st i newId now).1.success = true) ∧
    ((login st email password now).2 = st ∨ (login st email password now).1.success = true) ∧
    ((updateUser st uid p).2 = st ∨ (updateUser st uid p).1.success = true) ∧
    ((resetPassword st em rand).2 = st ∨ (resetPassword st em rand).1.success = true) := by
  refine ⟨?_, ?_, ?_, ?_⟩
  · unfold register
    split_ifs <;> first | exact Or.inl rfl | exact Or.inr rfl
  · unfold login
    split_ifs with h1
    · exact Or.inl rfl
    · split
      next => exact Or.inl rfl
      next user heq =>
        split_ifs with h2
        · exact Or.inl rfl
        · exact Or.inr rfl
  · unfold updateUser
    split
    next => exact Or.inl rfl
    next user heq =>
      dsimp only
      split_ifs with hconf
      · exact Or.inl rfl
      · exact Or.inr rfl
  · unfold resetPassword
    split
    next => exact Or.inl rfl
    next user heq => exact Or.inr rfl

/-- C4: every account view returned by register, login or update, and every
session value stored by the operations or by setCurrentUser, is the
redacted image `sanitizeUser u` of an account `u` stored in the resulting
state (and `SanitizedUser` carries no password field at all). -/
theorem c4_redaction (st : AuthState) (i : RegisterInput) (newId : Str) (now : Int)
    (email password uid : Str) (p : UserPatch) (u0 : User) :
    ((register st i newId now).1.user = none ∨
      ∃ u ∈ (register st i newId now).2.users,
        (register st i newId now).1.user = some (sanitizeUser u)) ∧
    ((login st email password now).1.user = none ∨
      ∃ u ∈ (login st email password now).2.users,
        (login st email password now).1.user = some (sanitizeUser u)) ∧
    ((login st email password now).2.currentUser = st.currentUser ∨
      ∃ u ∈ (login st email password now).2.users,
        (login st email password now).2.currentUser = some (sanitizeUser u)) ∧
    ((updateUser st uid p).1.user = none ∨
      ∃ u ∈ (updateUser st uid p).2.users,
        (updateUser st uid p).1.user = some (sanitizeUser u)) ∧
    ((updateUser st uid p).2.currentUser = st.currentUser ∨
      ∃ u ∈ (updateUser st uid p).2.users,
        (updateUser st uid p).2.currentUser = some (sanitizeUser u)) ∧
    (register st i newId now).2.currentUser = st.currentUser ∧
    (setCurrentUser st u0).currentUser = some (sanitizeUser u0) := by
  refine ⟨?_, ?_, ?_, ?_, ?_, ?_, rfl⟩
  · unfold register
    split_ifs
    · exact Or.inl rfl
    · exact Or.inl rfl
    · exact Or.inl rfl
    · exact Or.inl rfl
    · exact Or.inl rfl
    · exact Or.inr ⟨_, self_mem_saveUser _ _, rfl⟩
  · unfold login
    split_ifs with h1
    · exact Or.inl rfl
    · split
      next => exact Or.inl rfl
      next user heq =>
        split_ifs with h2
        · exact Or.inl rfl
        · exact Or.inr ⟨_, self_mem_saveUser _ _, rfl⟩
  · unfold login
    split_ifs with h1
    · exact Or.inl rfl
    · split
      next => exact Or.inl rfl
      next user heq =>
        split_ifs with h2
        · exact Or.inl rfl
        · exact Or.inr ⟨_, self_mem_saveUser _ _, rfl⟩
  · unfold updateUser
    split
    next => exact Or.inl rfl
    next user heq =>
      dsimp only
      split_ifs with hconf
      · exact Or.inl rfl
      · simp only [republish_users]
        exact Or.inr ⟨_, self_mem_saveUser _ _, rfl⟩
  · unfold updateUser
    split
    next => exact Or.inl rfl
    next user heq =>
      dsimp only
      split_ifs with hconf
      · exact Or.inl rfl
      · simp only [republish_users]
        unfold republishIfCurrent getCurrentUser setCurrentUser
        dsimp only
        cases hcu : st.currentUser with
        | none => exact Or.inl rfl
        | some cu =>
          dsimp only
          by_cases hcid : cu.id == uid
          · rw [if_pos hcid]
            exact Or.inr ⟨_, self_mem_saveUser _ _, rfl⟩
          · rw [if_neg hcid]
            exact Or.inl rfl
  · unfold register
    split_ifs <;> rfl

/-- Witness helper: the single-user fixture resolves its id. -/
theorem stOne_find : stOne.users.find? (fun u => u.id == "u1") = some userA := by
  rfl

/-- C8: getTodayConsultationCount counts exactly the consultation records
whose date, truncated to the calendar day, equals now's calendar day; on
the concrete history with three records appended today and two yesterday
it returns 3. -/
theorem c8_count_today (st : AuthState) (uid : Str) (now : Int) (user : User)
    (hfind : st.users.find? (fun u => u.id == uid) = some user) :
    getTodayConsultationCount st uid now =
      (user.consultationHistory.filter (fun c => c.date / dayMs == now / dayMs)).length ∧
    getTodayConsultationCount stScen "u1" tScen = 3 := by
  constructor
  · simp [getTodayConsultationCount, hfind, sameCalendarDay]
  · decide

/-- Witness for C8 at the single-user fixture. -/
theorem c8_count_today_witness :
    getTodayConsultationCount stOne "u1" 0 =
      (userA.consultationHistory.filter (fun c => c.date / dayMs == (0:Int) / dayMs)).length ∧
    getTodayConsultationCount stScen "u1" tScen = 3 :=
  c8_count_today stOne "u1" 0 userA stOne_find

/-- C7: the premium test is false off the premium tier, true on premium
with no expiry, and with an expiry true exactly when the expiry is strictly
after now; and after a premium_monthly purchase at `t0` the stored account
is premium with expiry one calendar month out — premium-active at
`t0 + 15 days`, inactive at `t0 + 2 months`. -/
theorem c7_premium_membership (mt : Str) (pe : Option Int) (now e : Int)
    (st : AuthState) (uid : Str) (p : PurchaseInput) (t0 : Int) (user : User)
    (hmt : mt ≠ "premium")
    (hfind : st.users.find? (fun u => u.id == uid) = some user)
    (htype : p.type = some "premium_monthly") :
    premiumActive mt pe now = false ∧
    premiumActive "premium" none now = true ∧
    (premiumActive "premium" (some e) now = true ↔ now < e) ∧
    (∃ u2, (addPurchaseHistory st uid p t0).2.users.find? (fun v => v.id == uid) = some u2 ∧
      u2.membershipType = "premium" ∧
      u2.premiumExpiry = some (jsAddMonths t0 1) ∧
      premiumActive u2.membershipType u2.premiumExpiry (t0 + 15 * dayMs) = true ∧
      premiumActive u2.membershipType u2.premiumExpiry (jsAddMonths t0 2) = false) := by
  obtain ⟨hmem, huid⟩ := find?_id_mem hfind
  have hfacts := jsAddMonths_facts t0
  refine ⟨?_, rfl, ?_, ?_⟩
  · simp [premiumActive, hmt]
  · simp [premiumActive]
  · unfold addPurchaseHistory
    rw [hfind]
    dsimp only
    rw [htype]
    rw [if_pos (by decide), if_neg (by decide)]
    unfold updateUser
    dsimp only
    rw [find?_saveUser st.users
      { user with purchaseHistory := mkPurchaseRecord t0 p :: user.purchaseHistory } uid huid]
    dsimp only [hashPatchPassword]
    rw [if_neg (by decide)]
    simp only [republish_users]
    rw [find?_saveUser _
      (applyPatch { user with purchaseHistory := mkPurchaseRecord t0 p :: user.purchaseHistory }
        ⟨none, none, none, none, none, none, none, none, none, some "premium",
          some (some (jsAddMonths t0 1))⟩) uid huid]
    refine ⟨_, rfl, rfl, rfl, ?_, ?_⟩
    · simp only [premiumActive, applyPatch]
      simp only [Option.getD]
      rw [if_pos (by decide)]
      simp only [decide_eq_true_eq]
      exact hfacts.1
    · simp only [premiumActive, applyPatch]
      simp only [Option.getD]
      rw [if_pos (by decide)]
      simp only [decide_eq_false_iff_not, not_lt]
      exact hfacts.2

/-- Witness for C7: a premium_monthly purchase on the single-user fixture at
a concrete epoch instant. -/
theorem c7_premium_membership_witness :
    premiumActive "free" none 0 = false ∧
    premiumActive "premium" none 0 = true ∧
    (premiumActive "premium" (some 5) 0 = true ↔ (0:Int) < 5) ∧
    (∃ u2, (addPurchaseHistory stOne "u1" ⟨none, none, some "premium_monthly", []⟩
        tScen).2.users.find? (fun v => v.id == "u1") = some u2 ∧
      u2.membershipType = "premium" ∧
      u2.premiumExpiry = some (jsAddMonths tScen 1) ∧
      premiumActive u2.membershipType u2.premiumExpiry (tScen + 15 * dayMs) = true ∧
      premiumActive u2.membershipType u2.premiumExpiry (jsAddMonths tScen 2) = false) :=
  c7_premium_membership "free" none 0 5 stOne "u1"
    ⟨none, none, some "premium_monthly", []⟩ tScen userA (by decide) stOne_find rfl

/-! ### C3 — ledger-assigned record ids and dates -/

/-- After a successful `updateUser` with a patch that carries only
`membershipType` / `premiumExpiry` keys, the account found under the same
id is exactly the merge of the old account with that patch. -/
theorem updateUser_membership_find (st : AuthState) (uid : Str) (user : User)
    (mt : Option Str) (pe : Option (Option Int))
    (hfind : st.users.find? (fun u => u.id == uid) = some user) :
    ∃ u2, (updateUser st uid
        ⟨none, none, none, none, none, none, none, none, none, mt, pe⟩).2.users.find?
          (fun v => v.id == uid) = some u2 ∧
      u2 = applyPatch user ⟨none, none, none, none, none, none, none, none, none, mt, pe⟩ := by
  obtain ⟨hmem, huid⟩ := find?_id_mem hfind
  unfold updateUser
  rw [hfind]
  dsimp only [hashPatchPassword]
  rw [if_neg (by decide)]
  simp only [republish_users]
  rw [find?_saveUser _
    (applyPatch user ⟨none, none, none, none, none, none, none, none, none, mt, pe⟩)
    uid huid]
  exact ⟨_, rfl, rfl⟩

/-- C3, counterexample: the spread `{ id: 'purchase_' + Date.now(),
...purchase, date: ... }` places the caller's fields after the generated
`id`, so a caller-supplied `id` key overrides the ledger's; only the
`date` key (written after the spread) is always the ledger's.  A purchase
with `id: 'evil'` is stored and returned with id `'evil'`, not the
generated `'purchase_555'`; the consultation path behaves the same. -/
theorem c3_counterexample :
    ((addPurchaseHistory stOne "u1" ⟨some "evil", some 123, none, []⟩ 555).1.purchase.map
        PurchaseRecord.id = some "evil" ∧
      (addPurchaseHistory stOne "u1" ⟨some "evil", some 123, none, []⟩ 555).1.purchase.map
        PurchaseRecord.date = some 555 ∧
      ((addPurchaseHistory stOne "u1" ⟨some "evil", some 123, none, []⟩ 555).2.users.map
        (fun u => u.purchaseHistory.map PurchaseRecord.id)) = [["evil"]] ∧
      "evil" ≠ "purchase_" ++ toString (555 : Int)) ∧
    ((addConsultationHistory stOne "u1" ⟨some "evil2", some 9, []⟩ 555).1.consultation.map
        ConsultationRecord.id = some "evil2" ∧
      "evil2" ≠ "consult_" ++ toString (555 : Int)) := by
  decide

/-- C3, amended: the record stored at the head of the history and the
record returned to the caller always carry the ledger's date `now`, and
the other caller fields unchanged; the id is the ledger-generated
`'purchase_'/'consult_' + now` only when the caller supplies no `id` key —
a caller-supplied `id` overrides it (the caller's `date` key never
survives, the caller's `id` key always does). -/
theorem c3_amended (st : AuthState) (uid : Str) (p : PurchaseInput)
    (c : ConsultationInput) (now : Int) (user : User)
    (hfind : st.users.find? (fun u => u.id == uid) = some user) :
    (addPurchaseHistory st uid p now).1.purchase =
        some ⟨p.id.getD ("purchase_" ++ toString now), p.type, now, p.extra⟩ ∧
    (∃ u2, (addPurchaseHistory st uid p now).2.users.find? (fun v => v.id == uid) = some u2 ∧
      u2.purchaseHistory.head? =
        some ⟨p.id.getD ("purchase_" ++ toString now), p.type, now, p.extra⟩) ∧
    (addConsultationHistory st uid c now).1.consultation =
        some ⟨c.id.getD ("consult_" ++ toString now), now, c.extra⟩ ∧
    (∃ u3, (addConsultationHistory st uid c now).2.users.find? (fun v => v.id == uid) = some u3 ∧
      u3.consultationHistory.head? =
        some ⟨c.id.getD ("consult_" ++ toString now), now, c.extra⟩) := by
  obtain ⟨hmem, huid⟩ := find?_id_mem hfind
  have hrec : mkPurchaseRecord now p =
      ⟨p.id.getD ("purchase_" ++ toString now), p.type, now, p.extra⟩ := by
    unfold mkPurchaseRecord
    cases p.id <;> rfl
  have hrecc : mkConsultationRecord now c =
      ⟨c.id.getD ("consult_" ++ toString now), now, c.extra⟩ := by
    unfold mkConsultationRecord
    cases c.id <;> rfl
  refine ⟨?_, ?_, ?_, ?_⟩
  · unfold addPurchaseHistory
    rw [hfind]
    dsimp only
    split_ifs <;> exact congrArg some hrec
  · unfold addPurchaseHistory
    rw [hfind]
    dsimp only
    split_ifs with hprem hyr
    · obtain ⟨u2, hfind2, hu2⟩ := updateUser_membership_find
        ⟨saveUser st.users
          { user with purchaseHistory := mkPurchaseRecord now p :: user.purchaseHistory },
          st.currentUser⟩ uid
        { user with purchaseHistory := mkPurchaseRecord now p :: user.purchaseHistory }
        (some "premium") (some (some (jsAddMonths now 12)))
        (find?_saveUser st.users
          { user with purchaseHistory := mkPurchaseRecord now p :: user.purchaseHistory }
          uid huid)
      refine ⟨u2, hfind2, ?_⟩
      rw [hu2]
      show some (mkPurchaseRecord now p) = _
      rw [hrec]
    · obtain ⟨u2, hfind2, hu2⟩ := updateUser_membership_find
        ⟨saveUser st.users
          { user with purchaseHistory := mkPurchaseRecord now p :: user.purchaseHistory },
          st.currentUser⟩ uid
        { user with purchaseHistory := mkPurchaseRecord now p :: user.purchaseHistory }
        (some "premium") (some (some (jsAddMonths now 1)))
        (find?_saveUser st.users
          { user with purchaseHistory := mkPurchaseRecord now p :: user.purchaseHistory }
          uid huid)
      refine ⟨u2, hfind2, ?_⟩
      rw [hu2]
      show some (mkPurchaseRecord now p) = _
      rw [hrec]
    · refine ⟨{ user with purchaseHistory := mkPurchaseRecord now p :: user.purchaseHistory },
        find?_saveUser st.users
          { user with purchaseHistory := mkPurchaseRecord now p :: user.purchaseHistory }
          uid huid, ?_⟩
      show some (mkPurchaseRecord now p) = _
      rw [hrec]
  · unfold addConsultationHistory
    rw [hfind]
    dsimp only
    exact congrArg some hrecc
  · unfold addConsultationHistory
    rw [hfind]
    dsimp only
    refine ⟨{ user with
        consultationHistory := mkConsultationRecord now c :: user.consultationHistory },
      find?_saveUser st.users
        { user with
          consultationHistory := mkConsultationRecord now c :: user.consultationHistory }
        uid huid, ?_⟩
    show some (mkConsultationRecord now c) = _
    rw [hrecc]

/-- Witness for C3 at the single-user fixture, with inputs that carry no
`id` key. -/
theorem c3_amended_witness :
    stOne.users.find? (fun u => u.id == "u1") = some userA ∧
    ((addPurchaseHistory stOne "u1" ⟨none, none, some "it", [("k", "v")]⟩ 777).1.purchase =
        some ⟨Option.getD none ("purchase_" ++ toString (777 : Int)), some "it", 777,
          [("k", "v")]⟩ ∧
      (∃ u2, (addPurchaseHistory stOne "u1" ⟨none, none, some "it", [("k", "v")]⟩
            777).2.users.find? (fun v => v.id == "u1") = some u2 ∧
        u2.purchaseHistory.head? =
          some ⟨Option.getD none ("purchase_" ++ toString (777 : Int)), some "it", 777,
            [("k", "v")]⟩) ∧
      (addConsultationHistory stOne "u1" ⟨none, some 9, [("q", "w")]⟩ 777).1.consultation =
        some ⟨Option.getD none ("consult_" ++ toString (777 : Int)), 777, [("q", "w")]⟩ ∧
      (∃ u3, (addConsultationHistory stOne "u1" ⟨none, some 9, [("q", "w")]⟩
            777).2.users.find? (fun v => v.id == "u1") = some u3 ∧
        u3.consultationHistory.head? =
          some ⟨Option.getD none ("consult_" ++ toString (777 : Int)), 777, [("q", "w")]⟩)) :=
  ⟨stOne_find, c3_amended stOne "u1" ⟨none, none, some "it", [("k", "v")]⟩
    ⟨none, some 9, [("q", "w")]⟩ 777 userA stOne_find⟩

/-! ### C9 — the id after an update -/

/-- C9, counterexample: `Object.assign(user, updates)` copies every key of
the patch, `id` included.  Updating the lone account `u1` with
`{ id: 'evil' }` succeeds, returns a view with id `'evil'`, and (because
`saveUser` then re-reads the store and matches on the new id) appends a
second record, leaving `['u1', 'evil']` in the store. -/
theorem c9_counterexample :
    (updateUser stOne "u1" patchEvilId).1.success = true ∧
    (updateUser stOne "u1" patchEvilId).1.user.map SanitizedUser.id = some "evil" ∧
    (updateUser stOne "u1" patchEvilId).2.users.map User.id = ["u1", "evil"] := by
  decide

/-- C9, amended: when the patch carries no `id` key, a successful
`updateUser` leaves the account's id unchanged: the account found under
the same id after the call is the merge, its id is the old id, and the
returned view carries the old id. -/
theorem c9_amended (st : AuthState) (uid : Str) (p : UserPatch) (user : User)
    (hid : p.id = none)
    (hfind : st.users.find? (fun u => u.id == uid) = some user)
    (hsucc : (updateUser st uid p).1.success = true) :
    ∃ u2, (updateUser st uid p).2.users.find? (fun v => v.id == uid) = some u2 ∧
      u2.id = user.id ∧
      (updateUser st uid p).1.user.map SanitizedUser.id = some user.id := by
  obtain ⟨hmem, huid⟩ := find?_id_mem hfind
  have hmid : (applyPatch user (hashPatchPassword p)).id = user.id := by
    simp [applyPatch, hashPatchPassword_id, hid]
  unfold updateUser at hsucc ⊢
  rw [hfind] at hsucc ⊢
  dsimp only at hsucc ⊢
  split_ifs at hsucc ⊢ with hconf
  · simp [opFail] at hsucc
  · simp only [republish_users]
    refine ⟨applyPatch user (hashPatchPassword p),
      find?_saveUser st.users (applyPatch user (hashPatchPassword p)) uid
        (by rw [hmid]; exact huid),
      hmid, congrArg some hmid⟩

/-- Witness for C9: a pure name change on the single-user fixture. -/
theorem c9_amended_witness :
    ∃ u2, (updateUser stOne "u1" patchName).2.users.find?
        (fun v => v.id == "u1") = some u2 ∧
      u2.id = userA.id ∧
      (updateUser stOne "u1" patchName).1.user.map SanitizedUser.id = some userA.id :=
  c9_amended stOne "u1" patchName userA rfl stOne_find (by decide)

/-! ### C2 — email uniqueness -/

/-- C2, counterexample: `updateUser` skips the conflict check whenever the
patch email is falsy (`updates.email &&`), so two accounts can be driven
to the same stored email through public operations alone: register two
accounts, then update each one's email to the empty string — the second
update also succeeds, and the store ends with two accounts sharing the
email `""`. -/
theorem c2_counterexample :
    c2s4.1.success = true ∧
    c2s4.2.users.map User.email = ["", ""] ∧
    c2s4.2.users.map User.id = ["id1", "id2"] := by
  decide

/-- C2, amended: registration with an email already in the store fails
and leaves the state unchanged; an update whose patch email is a
non-empty string held by a different account fails with the email-in-use
message and leaves the state unchanged; and every state reachable through
the public operations with update patches that carry no `id` key and
never set the email to `""` holds at most one account per email. -/
theorem c2_amended :
    (∀ (st : AuthState) (i : RegisterInput) (newId : Str) (now : Int),
      (∃ u ∈ st.users, u.email = i.email) →
        (register st i newId now).1.success = false ∧ (register st i newId now).2 = st) ∧
    (∀ (st : AuthState) (uid : Str) (p : UserPatch) (user other : User),
      st.users.find? (fun u => u.id == uid) = some user →
      other ∈ st.users → other.id ≠ uid → p.email = some other.email →
      other.email ≠ "" → other.email ≠ user.email →
        (updateUser st uid p).1 = opFail msgEmailInUse ∧ (updateUser st uid p).2 = st) ∧
    (∀ st : AuthState, ReachableSafe st →
      ∀ u ∈ st.users, ∀ v ∈ st.users, u.email = v.email → u = v) := by
  refine ⟨?_, ?_, ?_⟩
  · intro st i newId now hex
    unfold register
    split_ifs with h1 h2 h3 h4 h5
    · exact ⟨rfl, rfl⟩
    · exact ⟨rfl, rfl⟩
    · exact ⟨rfl, rfl⟩
    · exact ⟨rfl, rfl⟩
    · exact ⟨rfl, rfl⟩
    · exfalso
      obtain ⟨u, hu, hue⟩ := hex
      cases hfe : st.users.find? (fun v => v.email == i.email) with
      | some w => exact h5 (by rw [hfe]; rfl)
      | none =>
        have hnone := List.find?_eq_none.mp hfe u hu
        simp [hue] at hnone
  · intro st uid p user other hfind hom hoid hpe hone hne
    unfold updateUser
    rw [hfind]
    dsimp only
    split_ifs with h
    · exact ⟨rfl, rfl⟩
    · exfalso
      apply h
      rw [hashPatchPassword_email, hpe]
      simp only [truthy, Bool.and_eq_true, bne_iff_ne, ne_eq]
      refine ⟨⟨by simpa using hone, by simpa using hne⟩, ?_⟩
      rw [List.any_eq_true]
      refine ⟨other, hom, ?_⟩
      simp [hoid]
  · intro st hr u hu v hv hemail
    by_contra hneq
    have hg := reachableSafe_goodUsers hr
    have hsymm : Symmetric (fun a b : User => a.id ≠ b.id ∧ a.email ≠ b.email) :=
      fun x y h => ⟨h.1.symm, h.2.symm⟩
    exact ((hg.1.forall hsymm) hu hv hneq).2 hemail

/-- Witness for C2: a duplicate registration against the single-user
fixture, a conflicting email update between the two registered accounts,
and the uniqueness of the reachable one-account store. -/
theorem c2_amended_witness :
    ((register stOne regA "idX" 5).1.success = false ∧
      (register stOne regA "idX" 5).2 = stOne) ∧
    ((updateUser c2s2 "id1" patchB).1 = opFail msgEmailInUse ∧
      (updateUser c2s2 "id1" patchB).2 = c2s2) ∧
    (∀ u ∈ c2s1.users, ∀ v ∈ c2s1.users, u.email = v.email → u = v) :=
  ⟨c2_amended.1 stOne regA "idX" 5 ⟨userA, by decide, by decide⟩,
    c2_amended.2.1 c2s2 "id1" patchB userA1 userB1 (by decide) (by decide)
      (by decide) (by decide) (by decide) (by decide),
    c2_amended.2.2 c2s1 (ReachableSafe.reg ⟨[], none⟩ regA "id1" 0 ReachableSafe.init)⟩

end Auth
